import Mathlib

/-!
Verification of the PCP planning engine (`engine_pcp.py`, function
`executar_ciclo_pcp`) against its natural-language specification.

The engine receives a pandas DataFrame (one row per order/operation) and a
parameter dictionary, and runs the pipeline:
validate required columns, coerce types, compute per-row required and
adjusted times, aggregate load per resource (groupby, which sorts the group
keys), divide by the global capacity to get utilization, sort resources by
utilization descending and take the first as the bottleneck, restrict to
the bottleneck's rows, sort them by due date, accumulate times, clip delays
at zero and sum them.

Modelling conventions:
- floats are modelled as rationals, datetimes (after pd.to_datetime) as
  integers (timestamps): only arithmetic and ordering matter;
- a DataFrame is a column-name list plus a list of parsed rows;
- the parameter dict is a structure whose three recognized keys are Option
  fields (absent key means default, via dict.get); the entries the engine
  never reads (the per-resource dict passed by the API layer, and a
  hypothetical scheduling-policy entry) are carried as extra fields;
- pandas sort_values (default kind='quicksort') is modelled as a stable
  sort, which is exact only for frames below 17 rows: there numpy argsort
  falls back to a stable insertion sort (written out literally here), and
  for descending order pandas nargsort reverses the values before the
  argsort and reverses the indexer afterwards, so in that regime ties keep
  their original relative order.  From 17 elements on numpy's quicksort
  partition swaps equal keys, so the real sort does not preserve tie
  order; the records of claims C1 and C3 report that divergence as code
  bugs against the spec's deterministic tie-break and stability demands,
  and no theorem below relies on tie order beyond the stable regime;
- python string comparison is code-point lexicographic, modelled by lexLe
  on the character lists;
- raised exceptions are modelled by Except: the ValueError for missing
  columns carries the expected and received column sets (the two sets the
  message interpolates), and .iloc[0] on an empty frame raises an
  IndexError.
-/

/-- Code-point lexicographic order on character lists: the order python
uses to compare strings (and hence the order of pandas groupby keys and of
sorted string values). -/
def lexLe : List Char → List Char → Bool
  | [], _ => true
  | _ :: _, [] => false
  | x :: xs, y :: ys =>
    if x.toNat < y.toNat then true
    else if y.toNat < x.toNat then false
    else lexLe xs ys

/-- Python string comparison a <= b, by code points. -/
def strLeb (a b : String) : Bool := lexLe a.data b.data

/-- One parsed row of the uploaded spreadsheet, after the astype and
to_datetime coercions performed by the engine: pedido and recurso are
strings, tempo_processamento a float, quantidade an int, data_entrega a
datetime (modelled as a timestamp). -/
structure Linha where
  pedido : String
  recurso : String
  tempo_processamento : ℚ
  quantidade : ℤ
  data_entrega : ℤ
  deriving DecidableEq, Repr

/-- The input DataFrame: its column names and its parsed rows (the row
fields are those of the five required columns; extra columns carry no data
the engine reads). -/
structure Planilha where
  colunas : List String
  linhas : List Linha
  deriving DecidableEq, Repr

/-- The parameter dict. The engine reads exactly three keys with
dict.get defaults; Option models key absence. The recursos entry (the
per-resource capacity/efficiency/setup dict that the API layer passes) and
any scheduling-policy entry are modelled as extra fields the engine never
reads, as a python dict may hold arbitrary further keys. -/
structure Parametros where
  horas_disponiveis_dia : Option ℚ
  eficiencia_media : Option ℚ
  tempo_setup_medio : Option ℚ
  recursos : List (String × ℤ)
  politica_sequenciamento : Option String
  deriving DecidableEq, Repr

/-- Exceptions the engine can raise: the ValueError for an invalid sheet
(message interpolates the expected column set and the received column set)
and the IndexError from .iloc[0] on an empty frame. -/
inductive ErroEngine where
  | planilhaInvalida (esperado recebido : List String)
  | indexError
  deriving DecidableEq, Repr

/-- A row of the carga_recurso frame: groupby("recurso") sum of
tempo_ajustado, the constant capacity column, and their quotient. -/
structure CargaRecurso where
  recurso : String
  carga_total : ℚ
  capacidade : ℚ
  utilizacao : ℚ
  deriving DecidableEq, Repr

/-- A row of the returned ranking frame: the original row plus the computed
columns tempo_requerido, tempo_ajustado, ordem (index+1), tempo_acumulado
(cumsum) and atraso (clipped at zero). -/
structure ItemRanking where
  linha : Linha
  tempo_requerido : ℚ
  tempo_ajustado : ℚ
  ordem : ℕ
  tempo_acumulado : ℚ
  atraso : ℚ
  deriving DecidableEq, Repr

/-- The dict returned by executar_ciclo_pcp. -/
structure Resultado where
  gargalo : String
  atraso_total : ℚ
  ranking : List ItemRanking
  deriving DecidableEq, Repr

/-- Insert x into l keeping l's relative order: x walks past the elements
y with c y x (so equal elements stay before x).  This is one step of the
insertion sort numpy argsort performs on small arrays. -/
def inserirOrd {α : Type} (c : α → α → Bool) (x : α) : List α → List α
  | [] => [x]
  | y :: ys => if c y x then y :: inserirOrd c x ys else x :: y :: ys

/-- Left fold of inserirOrd over the input, starting from acc. -/
def ordenarAux {α : Type} (c : α → α → Bool) : List α → List α → List α
  | acc, [] => acc
  | acc, x :: xs => ordenarAux c (inserirOrd c x acc) xs

/-- Stable sort by the boolean comparison c, modelling pandas sort_values.
Each element is inserted after the already placed elements it compares
equal to, so equal keys keep their input order.  This is numpy argsort's
own insertion sort, used for arrays below 17 elements; for larger frames
the default quicksort can reorder equal keys, a divergence the C1 and C3
records report. -/
def ordenarEstavel {α : Type} (c : α → α → Bool) (xs : List α) : List α :=
  ordenarAux c [] xs

/-- The colunas_obrigatorias set of the engine. -/
def colunas_obrigatorias : List String :=
  ["pedido", "recurso", "tempo_processamento", "quantidade", "data_entrega"]

/-- parametros.get("horas_disponiveis_dia", 8.0). -/
def horasDisponiveis (p : Parametros) : ℚ := p.horas_disponiveis_dia.getD 8

/-- parametros.get("eficiencia_media", 1.0). -/
def eficienciaMedia (p : Parametros) : ℚ := p.eficiencia_media.getD 1

/-- parametros.get("tempo_setup_medio", 0.0). -/
def tempoSetupMedio (p : Parametros) : ℚ := p.tempo_setup_medio.getD 0

/-- df["tempo_requerido"] = df["quantidade"] * df["tempo_processamento"]. -/
def tempoRequerido (l : Linha) : ℚ := (l.quantidade : ℚ) * l.tempo_processamento

/-- df["tempo_ajustado"] = (df["tempo_requerido"] / eficiencia) + setup. -/
def tempoAjustado (p : Parametros) (l : Linha) : ℚ :=
  tempoRequerido l / eficienciaMedia p + tempoSetupMedio p

/-- The group keys of df.groupby("recurso"): the distinct resource values,
sorted ascending (groupby sorts its keys). -/
def recursosOrdenados (ls : List Linha) : List String :=
  ordenarEstavel strLeb ((ls.map Linha.recurso).dedup)

/-- Sum of tempo_ajustado over the rows referencing resource r. -/
def cargaDe (ls : List Linha) (p : Parametros) (r : String) : ℚ :=
  ((ls.filter (fun l => l.recurso == r)).map (tempoAjustado p)).sum

/-- The carga_recurso frame: groupby("recurso")["tempo_ajustado"].sum(),
then the constant capacidade column (horas_disponiveis) and the
utilizacao = carga_total / capacidade column. -/
def cargaPorRecurso (ls : List Linha) (p : Parametros) : List CargaRecurso :=
  (recursosOrdenados ls).map (fun r =>
    { recurso := r
      carga_total := cargaDe ls p r
      capacidade := horasDisponiveis p
      utilizacao := cargaDe ls p r / horasDisponiveis p })

/-- carga_total r / horas_disponiveis: the utilization the engine assigns
to resource r. -/
def utilizacaoDe (ls : List Linha) (p : Parametros) (r : String) : ℚ :=
  cargaDe ls p r / horasDisponiveis p

/-- carga_recurso.sort_values("utilizacao", ascending=False).iloc[0]["recurso"]:
sort descending by utilization and take the first row, none when the frame
is empty (.iloc[0] raises IndexError there).  Tie order is modelled as
stable (pandas nargsort reverses before and after the argsort, so ties
keep frame order while the argsort runs numpy's sub-17-element insertion
sort); for 17 or more resources the default quicksort gives no such
guarantee, which is the divergence the C1 record reports. -/
def escolherGargalo (cargas : List CargaRecurso) : Option String :=
  ((ordenarEstavel (fun a b => decide (b.utilizacao ≤ a.utilizacao)) cargas).head?).map
    CargaRecurso.recurso

/-- df[df["recurso"] == gargalo].sort_values("data_entrega"): the EDD queue
at the drum, sorted by due date ascending.  Tie order is modelled as
stable, exact for queues below 17 rows; from 17 rows the default quicksort
can reorder equal due dates, which is the divergence the C3 record
reports.  No theorem below depends on the queue's tie order. -/
def ordenarPorDataEntrega (ls : List Linha) : List Linha :=
  ordenarEstavel (fun a b => decide (a.data_entrega ≤ b.data_entrega)) ls

/-- Build the ranking rows in queue order: ordem = reset index + 1,
tempo_acumulado = running cumsum of tempo_ajustado, atraso =
(tempo_acumulado - horas_disponiveis).clip(lower=0). -/
def montarRanking (p : Parametros) : List Linha → ℕ → ℚ → List ItemRanking
  | [], _, _ => []
  | l :: resto, i, acc =>
    { linha := l
      tempo_requerido := tempoRequerido l
      tempo_ajustado := tempoAjustado p l
      ordem := i + 1
      tempo_acumulado := acc + tempoAjustado p l
      atraso := max (acc + tempoAjustado p l - horasDisponiveis p) 0 } ::
      montarRanking p resto (i + 1) (acc + tempoAjustado p l)

/-- The engine executar_ciclo_pcp: validate the required columns (raising
ValueError with the expected and received column sets), compute the
adjusted times, aggregate load and utilization per resource, pick the
bottleneck as the first row of the frame sorted by utilization descending
(IndexError on an empty frame), build the EDD ranking restricted to the
bottleneck's rows, and return the gargalo, the summed atraso_total and the
ranking frame. -/
def executar_ciclo_pcp (df : Planilha) (parametros : Parametros) :
    Except ErroEngine Resultado :=
  if colunas_obrigatorias.all (fun c => df.colunas.contains c) then
    let cargas := cargaPorRecurso df.linhas parametros
    match escolherGargalo cargas with
    | none => .error .indexError
    | some g =>
      let fila := ordenarPorDataEntrega (df.linhas.filter (fun l => l.recurso == g))
      let ranking := montarRanking parametros fila 0 0
      .ok { gargalo := g
            atraso_total := (ranking.map ItemRanking.atraso).sum
            ranking := ranking }
  else
    .error (.planilhaInvalida colunas_obrigatorias df.colunas)

/-! Lemmas about the stable insertion sort. -/

theorem inserirOrd_perm {α : Type} (c : α → α → Bool) (x : α) :
    ∀ l : List α, (inserirOrd c x l).Perm (x :: l)
  | [] => List.Perm.refl _
  | y :: ys => by
    rw [inserirOrd]
    by_cases h : c y x = true
    · rw [if_pos h]
      exact ((inserirOrd_perm c x ys).cons y).trans (List.Perm.swap x y ys)
    · rw [if_neg h]

theorem ordenarAux_perm {α : Type} (c : α → α → Bool) :
    ∀ (xs acc : List α), (ordenarAux c acc xs).Perm (acc ++ xs)
  | [], acc => by simp [ordenarAux]
  | x :: xs, acc => by
    rw [ordenarAux]
    refine (ordenarAux_perm c xs _).trans ?_
    refine ((inserirOrd_perm c x acc).append_right xs).trans ?_
    exact List.perm_middle.symm

theorem ordenarEstavel_perm {α : Type} (c : α → α → Bool) (xs : List α) :
    (ordenarEstavel c xs).Perm xs := by
  simpa using ordenarAux_perm c xs []

theorem inserirOrd_pairwise {α : Type} {c : α → α → Bool}
    (htot : ∀ a b, c a b = true ∨ c b a = true)
    (htrans : ∀ a b e, c a b = true → c b e = true → c a e = true) (x : α) :
    ∀ {l : List α}, l.Pairwise (fun a b => c a b = true) →
      (inserirOrd c x l).Pairwise (fun a b => c a b = true)
  | [], _ => by simp [inserirOrd]
  | y :: ys, hpw => by
    obtain ⟨hy, hys⟩ := List.pairwise_cons.mp hpw
    rw [inserirOrd]
    by_cases h : c y x = true
    · rw [if_pos h]
      refine List.pairwise_cons.mpr ⟨?_, inserirOrd_pairwise htot htrans x hys⟩
      intro z hz
      rcases List.mem_cons.mp ((inserirOrd_perm c x ys).mem_iff.mp hz) with rfl | hz'
      · exact h
      · exact hy z hz'
    · rw [if_neg h]
      have hxy : c x y = true := (htot x y).resolve_right (fun h' => h h')
      refine List.pairwise_cons.mpr ⟨?_, hpw⟩
      intro z hz
      rcases List.mem_cons.mp hz with rfl | hz'
      · exact hxy
      · exact htrans x y z hxy (hy z hz')

theorem ordenarAux_pairwise {α : Type} {c : α → α → Bool}
    (htot : ∀ a b, c a b = true ∨ c b a = true)
    (htrans : ∀ a b e, c a b = true → c b e = true → c a e = true) :
    ∀ (xs acc : List α), acc.Pairwise (fun a b => c a b = true) →
      (ordenarAux c acc xs).Pairwise (fun a b => c a b = true)
  | [], _, hacc => hacc
  | x :: xs, acc, hacc =>
    ordenarAux_pairwise htot htrans xs _ (inserirOrd_pairwise htot htrans x hacc)

theorem ordenarEstavel_pairwise {α : Type} {c : α → α → Bool}
    (htot : ∀ a b, c a b = true ∨ c b a = true)
    (htrans : ∀ a b e, c a b = true → c b e = true → c a e = true) (xs : List α) :
    (ordenarEstavel c xs).Pairwise (fun a b => c a b = true) :=
  ordenarAux_pairwise htot htrans xs [] List.Pairwise.nil

/-- The running best of a left-to-right scan: kept when the comparison c
holds for the incumbent against the newcomer, replaced otherwise.  This is
what the head of the stably sorted list works out to be. -/
def melhorDe {α : Type} (c : α → α → Bool) (b : α) (xs : List α) : α :=
  xs.foldl (fun u v => if c u v then u else v) b

theorem melhorDe_nil {α : Type} (c : α → α → Bool) (b : α) : melhorDe c b [] = b := rfl

theorem melhorDe_cons {α : Type} (c : α → α → Bool) (b x : α) (xs : List α) :
    melhorDe c b (x :: xs) = melhorDe c (if c b x then b else x) xs := rfl

theorem inserirOrd_head {α : Type} (c : α → α → Bool) (x : α) :
    ∀ l : List α,
      (inserirOrd c x l).head? =
        some (match l.head? with | none => x | some b => if c b x then b else x)
  | [] => rfl
  | y :: ys => by
    rw [inserirOrd]
    by_cases h : c y x = true
    · simp [h]
    · simp [h]

theorem ordenarAux_head {α : Type} (c : α → α → Bool) :
    ∀ (xs acc : List α) (b : α), acc.head? = some b →
      (ordenarAux c acc xs).head? = some (melhorDe c b xs)
  | [], acc, b, h => by rw [ordenarAux, melhorDe_nil]; exact h
  | x :: xs, acc, b, h => by
    rw [ordenarAux, melhorDe_cons]
    refine ordenarAux_head c xs _ _ ?_
    rw [inserirOrd_head, h]

theorem ordenarEstavel_head {α : Type} (c : α → α → Bool) (x : α) (xs : List α) :
    (ordenarEstavel c (x :: xs)).head? = some (melhorDe c x xs) := by
  rw [ordenarEstavel, ordenarAux]
  exact ordenarAux_head c xs [x] x rfl

theorem melhorDe_mem {α : Type} (c : α → α → Bool) :
    ∀ (xs : List α) (b : α), melhorDe c b xs ∈ b :: xs
  | [], b => by simp [melhorDe_nil]
  | x :: xs, b => by
    rw [melhorDe_cons]
    by_cases h : c b x = true
    · rw [if_pos h]
      rcases List.mem_cons.mp (melhorDe_mem c xs b) with h' | h'
      · rw [h']
        exact List.mem_cons_self _ _
      · exact List.mem_cons_of_mem _ (List.mem_cons_of_mem _ h')
    · rw [if_neg h]
      rcases List.mem_cons.mp (melhorDe_mem c xs x) with h' | h'
      · rw [h']
        exact List.mem_cons_of_mem _ (List.mem_cons_self _ _)
      · exact List.mem_cons_of_mem _ (List.mem_cons_of_mem _ h')

theorem melhorDe_best {α : Type} {c : α → α → Bool}
    (htot : ∀ a b, c a b = true ∨ c b a = true)
    (htrans : ∀ a b e, c a b = true → c b e = true → c a e = true) :
    ∀ (xs : List α) (b : α), ∀ y ∈ b :: xs, c (melhorDe c b xs) y = true
  | [], b, y, hy => by
    rw [melhorDe_nil]
    rw [List.mem_singleton] at hy
    subst hy
    exact (htot y y).elim id id
  | x :: xs, b, y, hy => by
    rw [melhorDe_cons]
    by_cases h : c b x = true
    · rw [if_pos h]
      rcases List.mem_cons.mp hy with h1 | hy'
      · subst h1
        exact melhorDe_best htot htrans xs _ _ (List.mem_cons_self _ _)
      rcases List.mem_cons.mp hy' with h2 | hy''
      · subst h2
        exact htrans _ b _ (melhorDe_best htot htrans xs b b (List.mem_cons_self _ _)) h
      · exact melhorDe_best htot htrans xs b y (List.mem_cons_of_mem _ hy'')
    · rw [if_neg h]
      have hxb : c x b = true := (htot b x).resolve_left (fun h' => h h')
      rcases List.mem_cons.mp hy with h1 | hy'
      · subst h1
        exact htrans _ x _ (melhorDe_best htot htrans xs x x (List.mem_cons_self _ _)) hxb
      · exact melhorDe_best htot htrans xs x y hy'

theorem melhorDe_primeiro {α : Type} {c d : α → α → Bool}
    (htot : ∀ a b, c a b = true ∨ c b a = true)
    (htrans : ∀ a b e, c a b = true → c b e = true → c a e = true)
    (drefl : ∀ a, d a a = true)
    (dtrans : ∀ a b e, d a b = true → d b e = true → d a e = true) :
    ∀ (xs : List α) (b : α), (b :: xs).Pairwise (fun a y => d a y = true) →
      ∀ y ∈ b :: xs, c y (melhorDe c b xs) = true → c (melhorDe c b xs) y = true →
        d (melhorDe c b xs) y = true
  | [], b, _, y, hy, _, _ => by
    rw [List.mem_singleton] at hy
    subst hy
    rw [melhorDe_nil]
    exact drefl y
  | x :: xs, b, hpw, y, hy, hym, hmy => by
    rw [melhorDe_cons] at hym hmy ⊢
    by_cases h : c b x = true
    · rw [if_pos h] at hym hmy ⊢
      have hpw' : (b :: xs).Pairwise (fun a y => d a y = true) := by
        refine hpw.sublist ?_
        exact (List.sublist_cons_self x xs).cons₂ b
      rcases List.mem_cons.mp hy with h1 | hy'
      · subst h1
        exact melhorDe_primeiro htot htrans drefl dtrans xs _ hpw' _
          (List.mem_cons_self _ _) hym hmy
      rcases List.mem_cons.mp hy' with h2 | hy''
      · have hmb : c (melhorDe c b xs) b = true :=
          melhorDe_best htot htrans xs b b (List.mem_cons_self _ _)
        have hby : c b y = true := by rw [h2]; exact h
        have hbm : c b (melhorDe c b xs) = true := htrans b y _ hby hym
        have dmb : d (melhorDe c b xs) b = true :=
          melhorDe_primeiro htot htrans drefl dtrans xs b hpw' b
            (List.mem_cons_self _ _) hbm hmb
        have dby : d b y = true :=
          (List.pairwise_cons.mp hpw).1 y (by rw [h2]; exact List.mem_cons_self _ _)
        exact dtrans _ b y dmb dby
      · exact melhorDe_primeiro htot htrans drefl dtrans xs b hpw' y
          (List.mem_cons_of_mem _ hy'') hym hmy
    · rw [if_neg h] at hym hmy ⊢
      have hpw' : (x :: xs).Pairwise (fun a y => d a y = true) :=
        (List.pairwise_cons.mp hpw).2
      rcases List.mem_cons.mp hy with h1 | hy'
      · have hmx : c (melhorDe c x xs) x = true :=
          melhorDe_best htot htrans xs x x (List.mem_cons_self _ _)
        have hyx : c y x = true := htrans y _ x hym hmx
        rw [h1] at hyx
        exact absurd hyx h
      · exact melhorDe_primeiro htot htrans drefl dtrans xs x hpw' y hy' hym hmy

/-! Properties of the code-point lexicographic string order. -/

theorem lexLe_refl : ∀ l : List Char, lexLe l l = true
  | [] => rfl
  | x :: xs => by
    rw [lexLe]
    rw [if_neg (Nat.lt_irrefl _), if_neg (Nat.lt_irrefl _)]
    exact lexLe_refl xs

theorem lexLe_total : ∀ a b : List Char, lexLe a b = true ∨ lexLe b a = true
  | [], _ => Or.inl rfl
  | _ :: _, [] => Or.inr rfl
  | x :: xs, y :: ys => by
    rw [lexLe, lexLe]
    rcases Nat.lt_trichotomy x.toNat y.toNat with h | h | h
    · left
      rw [if_pos h]
    · rw [if_neg (by omega), if_neg (by omega), if_neg (by omega), if_neg (by omega)]
      exact lexLe_total xs ys
    · right
      rw [if_pos h]

theorem lexLe_trans : ∀ a b e : List Char,
    lexLe a b = true → lexLe b e = true → lexLe a e = true
  | [], _, _, _, _ => rfl
  | _ :: _, [], _, hab, _ => by rw [lexLe] at hab; exact absurd hab (by simp)
  | _ :: _, _ :: _, [], _, hbe => by rw [lexLe] at hbe; exact absurd hbe (by simp)
  | x :: xs, y :: ys, z :: zs, hab, hbe => by
    rw [lexLe] at hab hbe ⊢
    by_cases h1 : x.toNat < y.toNat
    · by_cases h2 : y.toNat < z.toNat
      · rw [if_pos (Nat.lt_trans h1 h2)]
      · by_cases h3 : z.toNat < y.toNat
        · rw [if_neg h2, if_pos h3] at hbe
          exact absurd hbe (by simp)
        · rw [if_pos (by omega)]
    · by_cases h1' : y.toNat < x.toNat
      · rw [if_neg h1, if_pos h1'] at hab
        exact absurd hab (by simp)
      · rw [if_neg h1, if_neg h1'] at hab
        by_cases h2 : y.toNat < z.toNat
        · rw [if_pos (by omega)]
        · by_cases h3 : z.toNat < y.toNat
          · rw [if_neg h2, if_pos h3] at hbe
            exact absurd hbe (by simp)
          · rw [if_neg h2, if_neg h3] at hbe
            rw [if_neg (by omega), if_neg (by omega)]
            exact lexLe_trans xs ys zs hab hbe

theorem strLeb_refl (a : String) : strLeb a a = true := lexLe_refl a.data

theorem strLeb_total (a b : String) : strLeb a b = true ∨ strLeb b a = true :=
  lexLe_total a.data b.data

theorem strLeb_trans (a b e : String) :
    strLeb a b = true → strLeb b e = true → strLeb a e = true :=
  lexLe_trans a.data b.data e.data

/-! Structural lemmas about the engine's stages. -/

theorem mem_recursosOrdenados {ls : List Linha} {r : String} :
    r ∈ recursosOrdenados ls ↔ r ∈ ls.map Linha.recurso := by
  rw [recursosOrdenados, (ordenarEstavel_perm _ _).mem_iff, List.mem_dedup]

theorem recursosOrdenados_pairwise (ls : List Linha) :
    (recursosOrdenados ls).Pairwise (fun a b => strLeb a b = true) :=
  ordenarEstavel_pairwise strLeb_total strLeb_trans _

theorem map_recurso_cargaPorRecurso (ls : List Linha) (p : Parametros) :
    (cargaPorRecurso ls p).map CargaRecurso.recurso = recursosOrdenados ls := by
  rw [cargaPorRecurso, List.map_map]
  exact List.map_id _

theorem mem_cargaPorRecurso {ls : List Linha} {p : Parametros} {x : CargaRecurso}
    (hx : x ∈ cargaPorRecurso ls p) :
    x.recurso ∈ recursosOrdenados ls ∧
    x.carga_total = cargaDe ls p x.recurso ∧
    x.capacidade = horasDisponiveis p ∧
    x.utilizacao = utilizacaoDe ls p x.recurso := by
  rw [cargaPorRecurso] at hx
  obtain ⟨r, hr, rfl⟩ := List.mem_map.mp hx
  exact ⟨hr, rfl, rfl, rfl⟩

theorem cargaPorRecurso_pairwise (ls : List Linha) (p : Parametros) :
    (cargaPorRecurso ls p).Pairwise (fun a b => strLeb a.recurso b.recurso = true) := by
  rw [cargaPorRecurso, List.pairwise_map]
  exact recursosOrdenados_pairwise ls

theorem montarRanking_map_linha (p : Parametros) :
    ∀ (ls : List Linha) (i : ℕ) (acc : ℚ),
      (montarRanking p ls i acc).map ItemRanking.linha = ls
  | [], _, _ => rfl
  | l :: resto, i, acc => by
    rw [montarRanking, List.map_cons, montarRanking_map_linha p resto]

theorem montarRanking_map_ordem (p : Parametros) :
    ∀ (ls : List Linha) (i : ℕ) (acc : ℚ),
      (montarRanking p ls i acc).map ItemRanking.ordem = List.range' (i + 1) ls.length
  | [], _, _ => rfl
  | l :: resto, i, acc => by
    rw [montarRanking, List.map_cons, montarRanking_map_ordem p resto, List.length_cons,
      List.range'_succ]

theorem montarRanking_campos (p : Parametros) :
    ∀ (ls : List Linha) (i : ℕ) (acc : ℚ), ∀ it ∈ montarRanking p ls i acc,
      it.tempo_requerido = tempoRequerido it.linha ∧
      it.tempo_ajustado = tempoAjustado p it.linha ∧
      it.tempo_requerido = (it.linha.quantidade : ℚ) * it.linha.tempo_processamento ∧
      it.tempo_ajustado = it.tempo_requerido / eficienciaMedia p + tempoSetupMedio p ∧
      it.atraso = max (it.tempo_acumulado - horasDisponiveis p) 0
  | [], _, _ => by simp [montarRanking]
  | l :: resto, i, acc => by
    intro it hit
    rw [montarRanking] at hit
    rcases List.mem_cons.mp hit with h1 | h1
    · subst h1
      exact ⟨rfl, rfl, rfl, rfl, rfl⟩
    · exact montarRanking_campos p resto (i + 1) _ it h1

theorem montarRanking_chain (p : Parametros) :
    ∀ (ls : List Linha) (i : ℕ) (acc : ℚ), (∀ l ∈ ls, 0 ≤ tempoAjustado p l) →
      List.Chain' (fun a b => a.tempo_acumulado ≤ b.tempo_acumulado)
        (montarRanking p ls i acc)
  | [], _, _, _ => List.chain'_nil
  | [l], i, acc, _ => by
    rw [montarRanking, montarRanking]
    exact List.chain'_singleton _
  | l :: l' :: resto, i, acc, h => by
    rw [montarRanking, montarRanking, List.chain'_cons]
    constructor
    · have h' : 0 ≤ tempoAjustado p l' := h l' (List.mem_cons_of_mem _ (List.mem_cons_self _ _))
      simp only []
      linarith
    · rw [← montarRanking]
      exact montarRanking_chain p (l' :: resto) (i + 1) _
        (fun z hz => h z (List.mem_cons_of_mem _ hz))

/-- Inversion of a successful engine run: the bottleneck came from the
sorted load frame, the ranking is the EDD queue of the bottleneck's rows,
and the total delay is the sum of the ranking's delays. -/
theorem executar_ciclo_pcp_ok {df : Planilha} {p : Parametros} {res : Resultado}
    (h : executar_ciclo_pcp df p = Except.ok res) :
    escolherGargalo (cargaPorRecurso df.linhas p) = some res.gargalo ∧
    res.ranking = montarRanking p
      (ordenarPorDataEntrega (df.linhas.filter (fun l => l.recurso == res.gargalo))) 0 0 ∧
    res.atraso_total = (res.ranking.map ItemRanking.atraso).sum := by
  rw [executar_ciclo_pcp] at h
  by_cases hc : (colunas_obrigatorias.all (fun c => df.colunas.contains c)) = true
  · rw [if_pos hc] at h
    cases hg : escolherGargalo (cargaPorRecurso df.linhas p) with
    | none =>
      simp only [hg] at h
      exact absurd h (by simp)
    | some g =>
      simp only [hg] at h
      rw [Except.ok.injEq] at h
      subst h
      exact ⟨rfl, rfl, rfl⟩
  · rw [if_neg hc] at h
    exact absurd h (by simp)

/-- The bottleneck of a nonempty load frame exists: .iloc[0] succeeds. -/
theorem escolherGargalo_isSome {cargas : List CargaRecurso} (h : cargas ≠ []) :
    ∃ g, escolherGargalo cargas = some g := by
  cases cargas with
  | nil => exact absurd rfl h
  | cons k ks =>
    refine ⟨(melhorDe (fun a b => decide (b.utilizacao ≤ a.utilizacao)) k ks).recurso, ?_⟩
    rw [escolherGargalo, ordenarEstavel_head]
    rfl

/-- What the engine's bottleneck selection computes: a row of the load
frame whose utilization is maximal, and which precedes (in the frame's
resource order) every other row attaining that maximum. -/
theorem escolherGargalo_spec {cargas : List CargaRecurso} {g : String}
    (hpw : cargas.Pairwise (fun a b => strLeb a.recurso b.recurso = true))
    (hg : escolherGargalo cargas = some g) :
    ∃ m ∈ cargas, m.recurso = g ∧
      (∀ y ∈ cargas, y.utilizacao ≤ m.utilizacao) ∧
      (∀ y ∈ cargas, y.utilizacao = m.utilizacao → strLeb g y.recurso = true) := by
  have htot : ∀ a b : CargaRecurso,
      decide (b.utilizacao ≤ a.utilizacao) = true ∨
      decide (a.utilizacao ≤ b.utilizacao) = true := by
    intro a b
    simpa using le_total b.utilizacao a.utilizacao
  have htrans : ∀ a b e : CargaRecurso,
      decide (b.utilizacao ≤ a.utilizacao) = true →
      decide (e.utilizacao ≤ b.utilizacao) = true →
      decide (e.utilizacao ≤ a.utilizacao) = true := by
    intro a b e h1 h2
    simp only [decide_eq_true_eq] at h1 h2 ⊢
    exact le_trans h2 h1
  cases cargas with
  | nil => simp [escolherGargalo, ordenarEstavel, ordenarAux] at hg
  | cons k ks =>
    rw [escolherGargalo, ordenarEstavel_head, Option.map_some'] at hg
    rw [Option.some.injEq] at hg
    set m := melhorDe (fun a b => decide (b.utilizacao ≤ a.utilizacao)) k ks with hmdef
    refine ⟨m, melhorDe_mem _ ks k, hg, ?_, ?_⟩
    · intro y hy
      have := melhorDe_best htot htrans ks k y hy
      rw [← hmdef] at this
      simpa using this
    · intro y hy hu
      have hym : decide (m.utilizacao ≤ y.utilizacao) = true := by
        simp [hu]
      have hmy : decide (y.utilizacao ≤ m.utilizacao) = true := by
        simp [hu]
      have hd := melhorDe_primeiro htot htrans
        (fun a => strLeb_refl a.recurso)
        (fun a b e h1 h2 => strLeb_trans a.recurso b.recurso e.recurso h1 h2)
        ks k hpw y hy (hmdef ▸ hym) (hmdef ▸ hmy)
      rw [← hg]
      rw [← hmdef] at hd
      exact hd

/-- A successful run never has an empty load frame behind it. -/
theorem cargaPorRecurso_ne_nil {ls : List Linha} {p : Parametros} (h : ls ≠ []) :
    cargaPorRecurso ls p ≠ [] := by
  cases ls with
  | nil => exact absurd rfl h
  | cons l t =>
    have hm : l.recurso ∈ recursosOrdenados (l :: t) :=
      mem_recursosOrdenados.mpr (List.mem_map_of_mem _ (List.mem_cons_self _ _))
    intro hc
    rw [cargaPorRecurso] at hc
    rw [List.map_eq_nil] at hc
    rw [hc] at hm
    exact List.not_mem_nil _ hm

/-- Every row of the returned ranking belongs to the bottleneck resource. -/
theorem ranking_recurso_gargalo {df : Planilha} {p : Parametros} {res : Resultado}
    (hok : executar_ciclo_pcp df p = Except.ok res) :
    ∀ it ∈ res.ranking, it.linha.recurso = res.gargalo := by
  obtain ⟨-, hrank, -⟩ := executar_ciclo_pcp_ok hok
  intro it hit
  have hm : it.linha ∈ res.ranking.map ItemRanking.linha := List.mem_map_of_mem _ hit
  rw [hrank, montarRanking_map_linha, ordenarPorDataEntrega] at hm
  have hm' := (ordenarEstavel_perm _ _).mem_iff.mp hm
  have hf := List.of_mem_filter hm'
  exact eq_of_beq hf

/-- The Scenario D input: two rows with equal load on resources CNC_2 and
CNC_1, the CNC_2 row first, so that the tie-break (and not the row order)
decides the bottleneck.  With two resources the frame is in the stable
insertion-sort regime, where the model is exact. -/
def linhaP1 : Linha :=
  { pedido := "P1", recurso := "CNC_1", tempo_processamento := 9, quantidade := 1,
    data_entrega := 10 }

def linhaP2 : Linha :=
  { pedido := "P2", recurso := "CNC_2", tempo_processamento := 9, quantidade := 1,
    data_entrega := 20 }

def dfD : Planilha := { colunas := colunas_obrigatorias, linhas := [linhaP2, linhaP1] }

def pD : Parametros :=
  { horas_disponiveis_dia := some 10, eficiencia_media := some 1,
    tempo_setup_medio := some 0, recursos := [], politica_sequenciamento := none }

def resD : Resultado :=
  { gargalo := "CNC_1",
    atraso_total := 0,
    ranking := [{ linha := linhaP1, tempo_requerido := 9, tempo_ajustado := 9,
                  ordem := 1, tempo_acumulado := 9, atraso := 0 }] }

/-- Evaluation of the engine at the Scenario D frame: with two tied
resources (a sub-17-element frame, so the groupby's lexicographic key
order survives the descending sort) the bottleneck is CNC_1.  This
instance of the tie-break holds of the code; the universal lexicographic
tie-break does not, as the C1 record reports for 17 or more resources. -/
theorem execucao_dfD : executar_ciclo_pcp dfD pD = Except.ok resD := by
  have h1 : cargaPorRecurso dfD.linhas pD =
      [{ recurso := "CNC_1", carga_total := 9, capacidade := 10, utilizacao := 9 / 10 },
       { recurso := "CNC_2", carga_total := 9, capacidade := 10, utilizacao := 9 / 10 }] := by
    simp +decide [cargaPorRecurso, recursosOrdenados, ordenarEstavel, ordenarAux,
      inserirOrd, strLeb, lexLe, List.dedup, dfD, linhaP1, linhaP2, List.pwFilter,
      cargaDe, tempoAjustado, tempoRequerido, horasDisponiveis, eficienciaMedia,
      tempoSetupMedio, pD]
  have h2 : escolherGargalo (cargaPorRecurso dfD.linhas pD) = some "CNC_1" := by
    rw [h1]
    norm_num [escolherGargalo, ordenarEstavel, ordenarAux, inserirOrd]
  rw [executar_ciclo_pcp, if_pos (by decide)]
  simp only [h2]
  simp +decide [dfD, linhaP1, linhaP2, ordenarPorDataEntrega, ordenarEstavel, ordenarAux,
    inserirOrd, montarRanking, tempoAjustado, tempoRequerido, horasDisponiveis,
    eficienciaMedia, tempoSetupMedio, pD, resD]

/-- The empty frame: all five required columns, zero rows. -/
def dfVazio : Planilha := { colunas := colunas_obrigatorias, linhas := [] }

/-- Claim C2 is violated by the code: on a frame with all required columns
and zero rows the engine does not return an empty result; the load frame is
empty, so sort_values(...).iloc[0] raises IndexError for every parameter
dict.  The spec requires bottleneck None, total delay 0 and empty ranking
instead. -/
theorem C2_frame_vazio_index_error (p : Parametros) :
    executar_ciclo_pcp dfVazio p = Except.error ErroEngine.indexError := rfl

theorem montarRanking_length (p : Parametros) :
    ∀ (ls : List Linha) (i : ℕ) (acc : ℚ),
      (montarRanking p ls i acc).length = ls.length
  | [], _, _ => rfl
  | l :: resto, i, acc => by
    rw [montarRanking, List.length_cons, List.length_cons, montarRanking_length p resto]

/-- Claim C4: the engine computes tempo_requerido as quantidade times
tempo_processamento and tempo_ajustado as tempo_requerido over the
efficiency plus the setup, the load frame carries per resource the sum of
tempo_ajustado over that resource's rows, and utilization is total load
divided by the capacity column. -/
theorem C4_tempos_carga_utilizacao (df : Planilha) (p : Parametros) (res : Resultado)
    (hok : executar_ciclo_pcp df p = Except.ok res) :
    (∀ x ∈ cargaPorRecurso df.linhas p,
      x.carga_total = ((df.linhas.filter (fun l => l.recurso == x.recurso)).map
        (fun l => ((l.quantidade : ℚ) * l.tempo_processamento) / eficienciaMedia p +
          tempoSetupMedio p)).sum ∧
      x.utilizacao = x.carga_total / x.capacidade) ∧
    (∀ it ∈ res.ranking,
      it.tempo_requerido = (it.linha.quantidade : ℚ) * it.linha.tempo_processamento ∧
      it.tempo_ajustado = it.tempo_requerido / eficienciaMedia p + tempoSetupMedio p) := by
  constructor
  · intro x hx
    obtain ⟨-, hc, hcap, hu⟩ := mem_cargaPorRecurso hx
    refine ⟨?_, ?_⟩
    · rw [hc, cargaDe]
      rfl
    · rw [hu, utilizacaoDe, hcap, hc]
  · intro it hit
    obtain ⟨-, hrank, -⟩ := executar_ciclo_pcp_ok hok
    rw [hrank] at hit
    obtain ⟨-, -, h3, h4, -⟩ := montarRanking_campos p _ 0 0 it hit
    exact ⟨h3, h4⟩

/-- Claim C5: with nonnegative quantities, processing times and setup and
efficiency in (0,1], the cumulative time along the ranking never decreases,
each delay is the cumulative time past the capacity clipped below at zero,
and the total delay is their sum. -/
theorem C5_acumulado_monotono_atraso (df : Planilha) (p : Parametros) (res : Resultado)
    (hok : executar_ciclo_pcp df p = Except.ok res)
    (hq : ∀ l ∈ df.linhas, 0 ≤ l.quantidade)
    (ht : ∀ l ∈ df.linhas, 0 ≤ l.tempo_processamento)
    (hs : 0 ≤ tempoSetupMedio p)
    (he : 0 < eficienciaMedia p)
    (he1 : eficienciaMedia p ≤ 1) :
    List.Chain' (fun a b => a.tempo_acumulado ≤ b.tempo_acumulado) res.ranking ∧
    (∀ it ∈ res.ranking,
      it.atraso = max 0 (it.tempo_acumulado - horasDisponiveis p)) ∧
    res.atraso_total = (res.ranking.map ItemRanking.atraso).sum := by
  obtain ⟨-, hrank, hsum⟩ := executar_ciclo_pcp_ok hok
  have hpos : ∀ l ∈ df.linhas, 0 ≤ tempoAjustado p l := by
    intro l hl
    have h1 : (0 : ℚ) ≤ (l.quantidade : ℚ) := by exact_mod_cast hq l hl
    have h2 : 0 ≤ tempoRequerido l := mul_nonneg h1 (ht l hl)
    have h3 : 0 ≤ tempoRequerido l / eficienciaMedia p := div_nonneg h2 (le_of_lt he)
    exact add_nonneg h3 hs
  have hfil : ∀ l ∈ ordenarPorDataEntrega
      (df.linhas.filter (fun l => l.recurso == res.gargalo)), 0 ≤ tempoAjustado p l := by
    intro l hl
    rw [ordenarPorDataEntrega] at hl
    have hm := (ordenarEstavel_perm _ _).mem_iff.mp hl
    exact hpos l (List.mem_of_mem_filter hm)
  refine ⟨?_, ?_, hsum⟩
  · rw [hrank]
    exact montarRanking_chain p _ 0 0 hfil
  · intro it hit
    rw [hrank] at hit
    obtain ⟨-, -, -, -, h5⟩ := montarRanking_campos p _ 0 0 it hit
    rw [h5, max_comm]

/-- Claim C10: on a successful run the bottleneck occurs among the input
rows' resources, the ranking rows are exactly the input rows bound to the
bottleneck (as a permutation), every ranked row's resource is the
bottleneck, the rank numbers are 1..N consecutively, and the ranking is
nonempty. -/
theorem C10_ranking_exato_do_gargalo (df : Planilha) (p : Parametros) (res : Resultado)
    (hok : executar_ciclo_pcp df p = Except.ok res) :
    res.gargalo ∈ df.linhas.map Linha.recurso ∧
    (res.ranking.map ItemRanking.linha).Perm
      (df.linhas.filter (fun l => l.recurso == res.gargalo)) ∧
    (∀ it ∈ res.ranking, it.linha.recurso = res.gargalo) ∧
    res.ranking.map ItemRanking.ordem = List.range' 1 res.ranking.length ∧
    res.ranking ≠ [] := by
  obtain ⟨hg, hrank, -⟩ := executar_ciclo_pcp_ok hok
  obtain ⟨m, hm, hmr, -, -⟩ :=
    escolherGargalo_spec (cargaPorRecurso_pairwise df.linhas p) hg
  obtain ⟨hmm, -, -, -⟩ := mem_cargaPorRecurso hm
  have hgmem : res.gargalo ∈ df.linhas.map Linha.recurso := by
    rw [← hmr]
    exact mem_recursosOrdenados.mp hmm
  have hperm : (res.ranking.map ItemRanking.linha).Perm
      (df.linhas.filter (fun l => l.recurso == res.gargalo)) := by
    rw [hrank, montarRanking_map_linha, ordenarPorDataEntrega]
    exact ordenarEstavel_perm _ _
  refine ⟨hgmem, hperm, ranking_recurso_gargalo hok, ?_, ?_⟩
  · rw [hrank, montarRanking_map_ordem, montarRanking_length]
  · obtain ⟨l, hl, hlr⟩ := List.mem_map.mp hgmem
    have hlf : l ∈ df.linhas.filter (fun l => l.recurso == res.gargalo) :=
      List.mem_filter.mpr ⟨hl, by rw [hlr]; exact beq_self_eq_true _⟩
    intro hnil
    have hmem : l ∈ res.ranking.map ItemRanking.linha := hperm.mem_iff.mpr hlf
    rw [hnil] at hmem
    exact List.not_mem_nil _ hmem

/-- The Scenario A input: orders A, B, C on the single resource R with
processing times 5, 4, 2 and due dates 1, 2, 3, capacity 8, efficiency 1,
no setup. -/
def linhaA : Linha :=
  { pedido := "A", recurso := "R", tempo_processamento := 5, quantidade := 1,
    data_entrega := 1 }

def linhaB : Linha :=
  { pedido := "B", recurso := "R", tempo_processamento := 4, quantidade := 1,
    data_entrega := 2 }

def linhaC : Linha :=
  { pedido := "C", recurso := "R", tempo_processamento := 2, quantidade := 1,
    data_entrega := 3 }

def dfA : Planilha := { colunas := colunas_obrigatorias, linhas := [linhaA, linhaB, linhaC] }

def pA : Parametros :=
  { horas_disponiveis_dia := some 8, eficiencia_media := some 1,
    tempo_setup_medio := some 0, recursos := [], politica_sequenciamento := none }

def resA : Resultado :=
  { gargalo := "R",
    atraso_total := 4,
    ranking :=
      [{ linha := linhaA, tempo_requerido := 5, tempo_ajustado := 5,
         ordem := 1, tempo_acumulado := 5, atraso := 0 },
       { linha := linhaB, tempo_requerido := 4, tempo_ajustado := 4,
         ordem := 2, tempo_acumulado := 9, atraso := 1 },
       { linha := linhaC, tempo_requerido := 2, tempo_ajustado := 2,
         ordem := 3, tempo_acumulado := 11, atraso := 3 }] }

theorem execucao_dfA : executar_ciclo_pcp dfA pA = Except.ok resA := by
  have h1 : cargaPorRecurso dfA.linhas pA =
      [{ recurso := "R", carga_total := 11, capacidade := 8, utilizacao := 11 / 8 }] := by
    simp +decide [cargaPorRecurso, recursosOrdenados, ordenarEstavel, ordenarAux,
      inserirOrd, strLeb, lexLe, List.dedup, dfA, linhaA, linhaB, linhaC, List.pwFilter,
      cargaDe, tempoAjustado, tempoRequerido, horasDisponiveis, eficienciaMedia,
      tempoSetupMedio, pA]
    norm_num
  have h2 : escolherGargalo (cargaPorRecurso dfA.linhas pA) = some "R" := by
    rw [h1]
    norm_num [escolherGargalo, ordenarEstavel, ordenarAux, inserirOrd]
  rw [executar_ciclo_pcp, if_pos (by decide)]
  simp only [h2]
  simp +decide [dfA, linhaA, linhaB, linhaC, ordenarPorDataEntrega, ordenarEstavel,
    ordenarAux, inserirOrd, montarRanking, tempoAjustado, tempoRequerido,
    horasDisponiveis, eficienciaMedia, tempoSetupMedio, pA, resA]
  norm_num

/-- Witness for C4 at the Scenario A input. -/
theorem C4_witness :
    (∀ x ∈ cargaPorRecurso dfA.linhas pA,
      x.carga_total = ((dfA.linhas.filter (fun l => l.recurso == x.recurso)).map
        (fun l => ((l.quantidade : ℚ) * l.tempo_processamento) / eficienciaMedia pA +
          tempoSetupMedio pA)).sum ∧
      x.utilizacao = x.carga_total / x.capacidade) ∧
    (∀ it ∈ resA.ranking,
      it.tempo_requerido = (it.linha.quantidade : ℚ) * it.linha.tempo_processamento ∧
      it.tempo_ajustado = it.tempo_requerido / eficienciaMedia pA + tempoSetupMedio pA) :=
  C4_tempos_carga_utilizacao dfA pA resA execucao_dfA

/-- Witness for C5 at the Scenario A input: cumulative times 5, 9, 11,
delays 0, 1, 3, total 4. -/
theorem C5_witness :
    List.Chain' (fun a b => a.tempo_acumulado ≤ b.tempo_acumulado) resA.ranking ∧
    (∀ it ∈ resA.ranking,
      it.atraso = max 0 (it.tempo_acumulado - horasDisponiveis pA)) ∧
    resA.atraso_total = (resA.ranking.map ItemRanking.atraso).sum :=
  C5_acumulado_monotono_atraso dfA pA resA execucao_dfA
    (by intro l hl; fin_cases hl <;> decide)
    (by intro l hl; fin_cases hl <;> decide)
    (by decide) (by decide) (by decide)

/-- Witness for C10 at the Scenario A input. -/
theorem C10_witness :
    resA.gargalo ∈ dfA.linhas.map Linha.recurso ∧
    (resA.ranking.map ItemRanking.linha).Perm
      (dfA.linhas.filter (fun l => l.recurso == resA.gargalo)) ∧
    (∀ it ∈ resA.ranking, it.linha.recurso = resA.gargalo) ∧
    resA.ranking.map ItemRanking.ordem = List.range' 1 resA.ranking.length ∧
    resA.ranking ≠ [] :=
  C10_ranking_exato_do_gargalo dfA pA resA execucao_dfA

/-- The validation condition holds exactly when every required column is
present. -/
theorem validacao_iff (df : Planilha) :
    (colunas_obrigatorias.all (fun c => df.colunas.contains c) = true) ↔
      ∀ c ∈ colunas_obrigatorias, c ∈ df.colunas := by
  rw [List.all_eq_true]
  constructor
  · intro h c hc
    have := h c hc
    simpa using this
  · intro h c hc
    simpa using h c hc

/-- When the columns validate, the engine never raises the sheet
ValueError (its outcome is the IndexError or a result). -/
theorem sem_erro_planilha {df : Planilha} {p : Parametros}
    (hc : colunas_obrigatorias.all (fun c => df.colunas.contains c) = true) :
    ∀ e1 e2, executar_ciclo_pcp df p ≠ Except.error (ErroEngine.planilhaInvalida e1 e2) := by
  intro e1 e2 h
  rw [executar_ciclo_pcp, if_pos hc] at h
  cases hg : escolherGargalo (cargaPorRecurso df.linhas p) with
  | none =>
    simp only [hg] at h
    exact absurd h (by simp)
  | some g =>
    simp only [hg] at h
    exact absurd h (by simp)

/-- Claim C7: the engine raises the sheet ValueError exactly when one of
the five required columns is absent; the error carries the expected column
set and the received column set (from which the missing ones are the
difference), it depends only on the column list and not on the rows (raised
before any computation on them), and extra columns never trigger it. -/
theorem C7_validacao_colunas (df : Planilha) (p : Parametros) :
    (executar_ciclo_pcp df p =
        Except.error (ErroEngine.planilhaInvalida colunas_obrigatorias df.colunas) ↔
      ∃ c ∈ colunas_obrigatorias, c ∉ df.colunas) ∧
    (∀ ls : List Linha,
      executar_ciclo_pcp { colunas := df.colunas, linhas := ls } p =
        executar_ciclo_pcp df p ∨
      ∀ e1 e2, executar_ciclo_pcp { colunas := df.colunas, linhas := ls } p ≠
          Except.error (ErroEngine.planilhaInvalida e1 e2)) := by
  refine ⟨?_, ?_⟩
  · by_cases hc : colunas_obrigatorias.all (fun c => df.colunas.contains c) = true
    · refine ⟨fun h => absurd h (sem_erro_planilha hc _ _), fun h => ?_⟩
      obtain ⟨c, hc1, hc2⟩ := h
      exact absurd ((validacao_iff df).mp hc c hc1) hc2
    · refine ⟨fun _ => ?_, fun _ => ?_⟩
      · rcases not_forall.mp ((validacao_iff df).not.mp hc) with ⟨c, hcc⟩
        rcases Classical.not_imp.mp hcc with ⟨h1, h2⟩
        exact ⟨c, h1, h2⟩
      · rw [executar_ciclo_pcp, if_neg hc]
  · intro ls
    by_cases hc : colunas_obrigatorias.all (fun c => df.colunas.contains c) = true
    · right
      exact fun e1 e2 => @sem_erro_planilha { colunas := df.colunas, linhas := ls } p hc e1 e2
    · left
      rw [executar_ciclo_pcp, executar_ciclo_pcp]
      rw [if_neg hc, if_neg hc]

/-- Two orders on two different resources with identical load, so the
drum-scoped ranking can never contain both, whatever the configuration. -/
def linha6a : Linha :=
  { pedido := "P1", recurso := "A", tempo_processamento := 1, quantidade := 1,
    data_entrega := 0 }

def linha6b : Linha :=
  { pedido := "P2", recurso := "B", tempo_processamento := 1, quantidade := 1,
    data_entrega := 0 }

def df6 : Planilha := { colunas := colunas_obrigatorias, linhas := [linha6a, linha6b] }

/-- A parameter dict that names the global-tardiness policy in a
scheduling-policy entry, as the claim would have the caller do. -/
def pGlob : Parametros :=
  { horas_disponiveis_dia := some 8, eficiencia_media := some 1,
    tempo_setup_medio := some 0, recursos := [],
    politica_sequenciamento := some "global_tardiness" }

def res6 : Resultado :=
  { gargalo := "A",
    atraso_total := 0,
    ranking := [{ linha := linha6a, tempo_requerido := 1, tempo_ajustado := 1,
                  ordem := 1, tempo_acumulado := 1, atraso := 0 }] }

/-- Counterexample to claim C6: even with the parameter dict carrying the
global-tardiness policy name, the engine returns the drum-scoped EDD
ranking of the single bottleneck resource A — covering only order P1, not
all orders — because executar_ciclo_pcp reads no scheduling-policy option
at all. -/
theorem C6_counterexample_politica_ignorada :
    executar_ciclo_pcp df6 pGlob = Except.ok res6 := by
  have h1 : cargaPorRecurso df6.linhas pGlob =
      [{ recurso := "A", carga_total := 1, capacidade := 8, utilizacao := 1 / 8 },
       { recurso := "B", carga_total := 1, capacidade := 8, utilizacao := 1 / 8 }] := by
    simp +decide [cargaPorRecurso, recursosOrdenados, ordenarEstavel, ordenarAux,
      inserirOrd, strLeb, lexLe, List.dedup, df6, linha6a, linha6b, List.pwFilter,
      cargaDe, tempoAjustado, tempoRequerido, horasDisponiveis, eficienciaMedia,
      tempoSetupMedio, pGlob]
  have h2 : escolherGargalo (cargaPorRecurso df6.linhas pGlob) = some "A" := by
    rw [h1]
    norm_num [escolherGargalo, ordenarEstavel, ordenarAux, inserirOrd]
  rw [executar_ciclo_pcp, if_pos (by decide)]
  simp only [h2]
  simp +decide [df6, linha6a, linha6b, ordenarPorDataEntrega, ordenarEstavel, ordenarAux,
    inserirOrd, montarRanking, tempoAjustado, tempoRequerido, horasDisponiveis,
    eficienciaMedia, tempoSetupMedio, pGlob, res6]

/-- Two parameter dicts whose three read keys agree make the engine
compute the same loads. -/
theorem cargaPorRecurso_congr (ls : List Linha) {p q : Parametros}
    (h1 : horasDisponiveis p = horasDisponiveis q)
    (h2 : tempoAjustado p = tempoAjustado q) :
    cargaPorRecurso ls p = cargaPorRecurso ls q := by
  unfold cargaPorRecurso cargaDe
  rw [h1, h2]

/-- Two parameter dicts whose three read keys agree make the engine build
the same ranking rows. -/
theorem montarRanking_congr {p q : Parametros}
    (h1 : horasDisponiveis p = horasDisponiveis q)
    (h2 : tempoAjustado p = tempoAjustado q) :
    ∀ (ls : List Linha) (i : ℕ) (acc : ℚ),
      montarRanking p ls i acc = montarRanking q ls i acc
  | [], _, _ => rfl
  | l :: resto, i, acc => by
    rw [montarRanking, montarRanking, h1, h2, montarRanking_congr h1 h2 resto]

/-- The engine's outcome depends on the parameter dict only through the
three keys it reads. -/
theorem executar_ciclo_pcp_congr (df : Planilha) {p q : Parametros}
    (h1 : horasDisponiveis p = horasDisponiveis q)
    (h2 : tempoAjustado p = tempoAjustado q) :
    executar_ciclo_pcp df p = executar_ciclo_pcp df q := by
  rw [executar_ciclo_pcp, executar_ciclo_pcp]
  simp only [cargaPorRecurso_congr df.linhas h1 h2, montarRanking_congr h1 h2]

/-- Claim C6 amended: the engine implements only the drum-scoped EDD
policy.  It reads no scheduling-policy option: changing the policy entry
(or the unread recursos entry) of the parameter dict leaves the outcome
unchanged, and every successful run's ranking is the EDD queue of the
bottleneck's rows only. -/
theorem C6_amended_somente_drum_edd (df : Planilha) (h e s : Option ℚ)
    (rec rec' : List (String × ℤ)) (pol pol' : Option String) (res : Resultado)
    (hok : executar_ciclo_pcp df
      { horas_disponiveis_dia := h, eficiencia_media := e, tempo_setup_medio := s,
        recursos := rec, politica_sequenciamento := pol } = Except.ok res) :
    executar_ciclo_pcp df
        { horas_disponiveis_dia := h, eficiencia_media := e, tempo_setup_medio := s,
          recursos := rec', politica_sequenciamento := pol' } = Except.ok res ∧
    (∀ it ∈ res.ranking, it.linha.recurso = res.gargalo) ∧
    res.ranking = montarRanking
      { horas_disponiveis_dia := h, eficiencia_media := e, tempo_setup_medio := s,
        recursos := rec, politica_sequenciamento := pol }
      (ordenarPorDataEntrega (df.linhas.filter (fun l => l.recurso == res.gargalo))) 0 0 :=
  ⟨(@executar_ciclo_pcp_congr df
      { horas_disponiveis_dia := h, eficiencia_media := e, tempo_setup_medio := s,
        recursos := rec', politica_sequenciamento := pol' }
      { horas_disponiveis_dia := h, eficiencia_media := e, tempo_setup_medio := s,
        recursos := rec, politica_sequenciamento := pol }
      rfl (funext fun _ => rfl)).trans hok,
    ranking_recurso_gargalo hok, (executar_ciclo_pcp_ok hok).2.1⟩

/-- Witness for the amended C6: at the two-resource input the run with the
policy entry removed and the recursos entry altered returns the same
result. -/
theorem C6_amended_witness :
    executar_ciclo_pcp df6
        { horas_disponiveis_dia := some 8, eficiencia_media := some 1,
          tempo_setup_medio := some 0, recursos := [("Corte", 1)],
          politica_sequenciamento := none } = Except.ok res6 ∧
    (∀ it ∈ res6.ranking, it.linha.recurso = res6.gargalo) ∧
    res6.ranking = montarRanking
      { horas_disponiveis_dia := some 8, eficiencia_media := some 1,
        tempo_setup_medio := some 0, recursos := [],
        politica_sequenciamento := some "global_tardiness" }
      (ordenarPorDataEntrega (df6.linhas.filter (fun l => l.recurso == res6.gargalo))) 0 0 :=
  C6_amended_somente_drum_edd df6 (some 8) (some 1) (some 0) [] [("Corte", 1)]
    (some "global_tardiness") none res6 C6_counterexample_politica_ignorada

/-- A one-row input for the capacity-zero run. -/
def linhaC8 : Linha :=
  { pedido := "P1", recurso := "R", tempo_processamento := 2, quantidade := 1,
    data_entrega := 0 }

def dfC8 : Planilha := { colunas := colunas_obrigatorias, linhas := [linhaC8] }

/-- Parameters with horas_disponiveis_dia = 0: zero capacity. -/
def pC8 : Parametros :=
  { horas_disponiveis_dia := some 0, eficiencia_media := some 1,
    tempo_setup_medio := some 0, recursos := [], politica_sequenciamento := none }

def resC8 : Resultado :=
  { gargalo := "R",
    atraso_total := 2,
    ranking := [{ linha := linhaC8, tempo_requerido := 2, tempo_ajustado := 2,
                  ordem := 1, tempo_acumulado := 2, atraso := 2 }] }

/-- Counterexample to claim C8: a cycle whose capacity parameter is zero is
not rejected — no ConfigurationError exists in the engine — and the whole
pipeline (aggregation, utilization division by zero, bottleneck selection,
ranking) runs to completion and returns a result. -/
theorem C8_counterexample_capacidade_zero_aceita :
    executar_ciclo_pcp dfC8 pC8 = Except.ok resC8 := by
  have h1 : cargaPorRecurso dfC8.linhas pC8 =
      [{ recurso := "R", carga_total := 2, capacidade := 0, utilizacao := 2 / 0 }] := by
    simp +decide [cargaPorRecurso, recursosOrdenados, ordenarEstavel, ordenarAux,
      inserirOrd, strLeb, lexLe, List.dedup, dfC8, linhaC8, List.pwFilter,
      cargaDe, tempoAjustado, tempoRequerido, horasDisponiveis, eficienciaMedia,
      tempoSetupMedio, pC8]
  have h2 : escolherGargalo (cargaPorRecurso dfC8.linhas pC8) = some "R" := by
    rw [h1]
    norm_num [escolherGargalo, ordenarEstavel, ordenarAux, inserirOrd]
  rw [executar_ciclo_pcp, if_pos (by decide)]
  simp only [h2]
  simp +decide [dfC8, linhaC8, ordenarPorDataEntrega, ordenarEstavel, ordenarAux,
    inserirOrd, montarRanking, tempoAjustado, tempoRequerido, horasDisponiveis,
    eficienciaMedia, tempoSetupMedio, pC8, resC8]

/-- Claim C8 amended: the engine performs no configuration validation at
all — whatever the capacity, efficiency or setup values (zero, negative,
out of (0,1]), any input with the required columns and at least one row
completes the cycle and returns a result. -/
theorem C8_amended_sem_validacao_config (df : Planilha) (p : Parametros)
    (hc : colunas_obrigatorias.all (fun c => df.colunas.contains c) = true)
    (hne : df.linhas ≠ []) :
    ∃ res, executar_ciclo_pcp df p = Except.ok res := by
  obtain ⟨g, hg⟩ := escolherGargalo_isSome (@cargaPorRecurso_ne_nil df.linhas p hne)
  rw [executar_ciclo_pcp, if_pos hc]
  simp only [hg]
  exact ⟨_, rfl⟩

/-- Witness for the amended C8: the zero-capacity one-row cycle returns a
result. -/
theorem C8_amended_witness : ∃ res, executar_ciclo_pcp dfC8 pC8 = Except.ok res :=
  C8_amended_sem_validacao_config dfC8 pC8 (by decide) (by decide)

/-- Claim C9: the capacity used for every resource's utilization is the
single global horas_disponiveis_dia parameter (default 8), identical
across resources; the per-resource data of the recursos entry is ignored
(the outcome does not depend on it); and with a positive capacity the
utilization order of any two resources coincides with their total-load
order. -/
theorem C9_capacidade_global_unica (df : Planilha) (p : Parametros)
    (hpos : 0 < horasDisponiveis p) :
    (∀ x ∈ cargaPorRecurso df.linhas p,
      x.capacidade = horasDisponiveis p ∧
      x.utilizacao = x.carga_total / horasDisponiveis p) ∧
    (∀ (e s : Option ℚ) (rec : List (String × ℤ)) (pol : Option String),
      horasDisponiveis
        { horas_disponiveis_dia := none, eficiencia_media := e, tempo_setup_medio := s,
          recursos := rec, politica_sequenciamento := pol } = 8) ∧
    (∀ rec' : List (String × ℤ),
      executar_ciclo_pcp df
        { horas_disponiveis_dia := p.horas_disponiveis_dia,
          eficiencia_media := p.eficiencia_media,
          tempo_setup_medio := p.tempo_setup_medio,
          recursos := rec',
          politica_sequenciamento := p.politica_sequenciamento } =
      executar_ciclo_pcp df p) ∧
    (∀ x ∈ cargaPorRecurso df.linhas p, ∀ y ∈ cargaPorRecurso df.linhas p,
      (x.utilizacao ≤ y.utilizacao ↔ x.carga_total ≤ y.carga_total)) := by
  refine ⟨?_, fun e s rec pol => rfl, ?_, ?_⟩
  · intro x hx
    obtain ⟨-, hc, hcap, hu⟩ := mem_cargaPorRecurso hx
    exact ⟨hcap, by rw [hu, utilizacaoDe, hc]⟩
  · intro rec'
    exact @executar_ciclo_pcp_congr df
      { horas_disponiveis_dia := p.horas_disponiveis_dia,
        eficiencia_media := p.eficiencia_media,
        tempo_setup_medio := p.tempo_setup_medio,
        recursos := rec',
        politica_sequenciamento := p.politica_sequenciamento } p
      rfl (funext fun _ => rfl)
  · intro x hx y hy
    obtain ⟨-, hcx, -, hux⟩ := mem_cargaPorRecurso hx
    obtain ⟨-, hcy, -, huy⟩ := mem_cargaPorRecurso hy
    rw [hux, huy, utilizacaoDe, utilizacaoDe, ← hcx, ← hcy]
    exact div_le_div_iff_of_pos_right hpos

/-- Witness for C9 at the Scenario A input, whose capacity 8 is positive. -/
theorem C9_witness :
    (∀ x ∈ cargaPorRecurso dfA.linhas pA,
      x.capacidade = horasDisponiveis pA ∧
      x.utilizacao = x.carga_total / horasDisponiveis pA) ∧
    (∀ (e s : Option ℚ) (rec : List (String × ℤ)) (pol : Option String),
      horasDisponiveis
        { horas_disponiveis_dia := none, eficiencia_media := e, tempo_setup_medio := s,
          recursos := rec, politica_sequenciamento := pol } = 8) ∧
    (∀ rec' : List (String × ℤ),
      executar_ciclo_pcp dfA
        { horas_disponiveis_dia := pA.horas_disponiveis_dia,
          eficiencia_media := pA.eficiencia_media,
          tempo_setup_medio := pA.tempo_setup_medio,
          recursos := rec',
          politica_sequenciamento := pA.politica_sequenciamento } =
      executar_ciclo_pcp dfA pA) ∧
    (∀ x ∈ cargaPorRecurso dfA.linhas pA, ∀ y ∈ cargaPorRecurso dfA.linhas pA,
      (x.utilizacao ≤ y.utilizacao ↔ x.carga_total ≤ y.carga_total)) :=
  C9_capacidade_global_unica dfA pA (by decide)
